import Mathlib

/-!
Verification of the virtual-grid-layout engine.

This file embeds the layout/measurement/reconciliation engine of
src/src/GridLayout.ts (the current variant of the file, which precedes the
appended historical variant) and the scroll-policy module src/src/GridScroll.ts.

Modelling conventions:
* JavaScript numbers that hold integer values are modelled as `Int`
  (indices and sizes are integral in every reachable state of the engine).
* `Int16Array` storage wraps values into the signed 16-bit range; the wrap
  is modelled explicitly by `toInt16` where a value is written into such an
  array (`integrateSizes`).  Reads of already-stored entries need no wrap.
* A JavaScript function that may throw is modelled with result type
  `Except String`; the string is the error message.
* DOM cell elements are an opaque handle type `α` with decidable equality.
* The `measure` callback mutates the scanned size array in place; it is
  modelled as a function returning the updated array.
* `prepareCell` is modelled as a pure function from its arguments to the
  returned handle; `releaseCell` is modelled by collecting the handles that
  would be passed to it into a list (empty when no callback is supplied).
* The cell rectangle that the engine assigns to an emitted cell via
  `positionCell` is surfaced as part of the render result.
-/

namespace VGL

/-- Signed 16-bit wrap, the semantics of storing a JS integer into an
`Int16Array` slot. -/
def toInt16 (x : Int) : Int :=
  (x + 32768) % 65536 - 32768

/-- `Int16Array.prototype.slice(s, e)` for non-negative bounds:
the elements at positions `s .. e-1`, clamped to the array. -/
def listSlice (l : List Int) (s e : Nat) : List Int :=
  (l.take e).drop s

/-- Position and dimension of a cell element, in pixels
(the arguments the engine passes to `positionCell`). -/
structure Rect where
  x : Int
  y : Int
  width : Int
  height : Int
deriving DecidableEq, Repr

namespace GridLayout

/-- Cell kinds of the grid (enum `CellType`).  The source names the second
constructor `macro`, which is a reserved word in Lean and is therefore
rendered `macroCell` here. -/
inductive CellType where
  | regular
  | macroCell
deriving DecidableEq, Repr

/-- A viewport position of the grid (interface `ViewportPosition`). -/
structure ViewportPosition where
  rowNdx : Int
  colNdx : Int
  rowPixelOffset : Int
  colPixelOffset : Int
deriving DecidableEq, Repr

/-- The `measure` callback of `RenderParms`: given the current size array,
a start index, a count and the orientation flag, it resolves undetermined
entries in place and is modelled as returning the updated array
(it must preserve the length, as mutation of an `Int16Array` does). -/
def MeasureFn : Type := List Int → Nat → Nat → Bool → List Int

/-- The `prepareCell` callback: cell type, row index, column index, width,
height and the optional old cell, returning the prepared cell handle. -/
def PrepareCellFn (α : Type) : Type :=
  CellType → Int → Int → Int → Int → Option α → α

/-- Parameters for `render()` (interface `RenderParms`).
`releaseCell` records whether a release callback is supplied. -/
structure RenderParms (α : Type) where
  viewportPosition : ViewportPosition
  rowHeights : List Int
  colWidths : List Int
  macroCellHeights : Option (List Int)
  macroCellWidth : Int
  vCellOverlap : Int
  measure : Option MeasureFn
  prepareCell : PrepareCellFn α
  releaseCell : Bool

/-- A map for a rectangular area of cells (class `CellRectMap`). -/
structure CellRectMap (α : Type) where
  rowOffset : Int
  colOffset : Int
  rowCount : Int
  colCount : Int
  a : List (Option α)

namespace CellRectMap

/-- The `CellRectMap` constructor: validates its parameters and allocates
the backing array. -/
def make (α : Type) (rowOffset colOffset rowCount colCount : Int) :
    Except String (CellRectMap α) :=
  if rowOffset < 0 ∨ colOffset < 0 ∨ rowCount < 0 ∨ colCount < 0 then
    .error "Invalid constructor parameters."
  else
    .ok ⟨rowOffset, colOffset, rowCount, colCount,
         List.replicate (rowCount * colCount).toNat none⟩

/-- `getArrayIndex`: `none` for a coordinate outside the window. -/
def getArrayIndex {α : Type} (m : CellRectMap α) (rowNdx colNdx : Int) :
    Option Nat :=
  let rowRel := rowNdx - m.rowOffset
  let colRel := colNdx - m.colOffset
  if rowRel < 0 ∨ rowRel ≥ m.rowCount ∨ colRel < 0 ∨ colRel ≥ m.colCount then
    none
  else
    some (rowRel * m.colCount + colRel).toNat

/-- `set`: throws on an out-of-window coordinate, otherwise stores the value
(`delete` stores `none`, like the source stores `undefined`). -/
def set {α : Type} (m : CellRectMap α) (rowNdx colNdx : Int)
    (cell : Option α) : Except String (CellRectMap α) :=
  match m.getArrayIndex rowNdx colNdx with
  | none => .error "Invalid cell position."
  | some i => .ok {m with a := m.a.set i cell}

/-- `delete` is `set` with `undefined`. -/
def delete {α : Type} (m : CellRectMap α) (rowNdx colNdx : Int) :
    Except String (CellRectMap α) :=
  m.set rowNdx colNdx none

/-- `get`: returns `undefined` (without throwing) for a coordinate outside
the window; the `Except` layer is the exception channel, which this method
never uses. -/
def get {α : Type} (m : CellRectMap α) (rowNdx colNdx : Int) :
    Except String (Option α) :=
  match m.getArrayIndex rowNdx colNdx with
  | none => .ok none
  | some i => .ok (m.a.getD i none)

/-- `getAll`: the backing array. -/
def getAll {α : Type} (m : CellRectMap α) : List (Option α) :=
  m.a

end CellRectMap

/-- `integrateSizes(startPos, sizes)`: prefix-sum boundaries, each stored
into an `Int16Array` slot (hence wrapped by `toInt16`); negative sizes
contribute `max 0`. -/
def integrateSizes (startPos : Int) : List Int → List Int
  | [] => [toInt16 startPos]
  | s :: rest => toInt16 startPos :: integrateSizes (startPos + max 0 s) rest

/-- The loop of `scanDistance`.  `n` is the array length captured at entry;
the fuel equals `n - i` and makes the recursion structural.  Each iteration
runs only while `d < distance` and `i < n`, reads `a[i]`, resolves the
`-1` sentinel through the `measure` callback (failing when the callback is
absent or leaves the entry undetermined), accumulates `max 0 w`, and
advances `i`. -/
def scanLoop (measure : Option MeasureFn) (orientation : Bool)
    (distance : Int) (n : Nat) :
    Nat → List Int → Nat → Int → Except String (Nat × List Int)
  | 0, a, i, _ => .ok (i, a)
  | fuel + 1, a, i, d =>
    if d < distance then
      let w := a.getD i 0
      if w = -1 then
        match measure with
        | none =>
          .error "Undetermined rowHeights/colWidths value encountered but measure function is undefined."
        | some f =>
          let a1 := f a i (min 25 (n - i)) orientation
          let w1 := a1.getD i 0
          if w1 = -1 then
            .error "rowHeights/colWidths value stayed undetermined even after measure function was called."
          else
            scanLoop measure orientation distance n fuel a1 (i + 1) (d + max 0 w1)
      else
        scanLoop measure orientation distance n fuel a (i + 1) (d + max 0 w)
    else
      .ok (i, a)

/-- `scanDistance(a, startNdx, distance, measure, orientation)`: walks the
size array forward from `startNdx` accumulating sizes until the distance is
covered or the end of the array is reached; returns the end index together
with the (possibly measure-updated) array. -/
def scanDistance (a : List Int) (startNdx : Nat) (distance : Int)
    (measure : Option MeasureFn) (orientation : Bool) :
    Except String (Nat × List Int) :=
  scanLoop measure orientation distance a.length (a.length - startNdx) a startNdx 0

/-- Current rendered state (interface `RenderedState`). -/
structure RenderedState (α : Type) where
  viewportPosition : ViewportPosition
  viewportHeight : Int
  viewportWidth : Int
  visibleRows : Nat
  visibleCols : Nat
  visibleRowHeights : List Int
  visibleColWidths : List Int
  visibleMacroCellHeights : Option (List Int)
  rowYPositions : List Int
  colXPositions : List Int
  regularCells : CellRectMap α
  macroCells : CellRectMap α

/-- The layout controller (class `LayoutController`).  The viewport element
is represented by its client dimensions, which `render` reads afresh. -/
structure LayoutController (α : Type) where
  viewportHeight : Int
  viewportWidth : Int
  renderedState : Option (RenderedState α)

/-- `initRender`: validates the viewport position, determines the visible
rows and columns via `scanDistance`, snapshots the visible size slices,
applies the defensive stale-pixel-offset resets, integrates the boundary
positions and builds the fresh cell maps.  The source assigns
`this.renderedState = rs` as its final statement; in `render` below the
returned state is committed at exactly that point. -/
def LayoutController.initRender {α : Type} (ctrl : LayoutController α) (rp : RenderParms α) :
    Except String (RenderedState α) :=
  let viewportHeight := ctrl.viewportHeight
  let viewportWidth := ctrl.viewportWidth
  let pos := rp.viewportPosition
  if pos.rowNdx < 0 ∨ pos.colNdx < 0 ∨
      pos.rowPixelOffset < 0 ∨ pos.colPixelOffset < 0 then
    .error "Invalid viewport position."
  else
    match scanDistance rp.rowHeights pos.rowNdx.toNat
            (pos.rowPixelOffset + viewportHeight) rp.measure true with
    | .error e => .error e
    | .ok r1 =>
      match scanDistance rp.colWidths pos.colNdx.toNat
              (pos.colPixelOffset + viewportWidth) rp.measure false with
      | .error e => .error e
      | .ok r2 =>
        let bottomRowNdx := r1.1
        let visibleRows := bottomRowNdx - pos.rowNdx.toNat
        let rightColNdx := r2.1
        let visibleCols := rightColNdx - pos.colNdx.toNat
        let visibleRowHeights := listSlice r1.2 pos.rowNdx.toNat bottomRowNdx
        let visibleMacroCellHeights :=
          rp.macroCellHeights.map (fun mh => listSlice mh pos.rowNdx.toNat bottomRowNdx)
        let visibleColWidths := listSlice r2.2 pos.colNdx.toNat rightColNdx
        let rowPixelOffset :=
          if 0 < visibleRows ∧ 0 < pos.rowPixelOffset ∧
              pos.rowPixelOffset ≥ visibleRowHeights.getD 0 0 then 0
          else pos.rowPixelOffset
        let colPixelOffset :=
          if 0 < visibleCols ∧ 0 < pos.colPixelOffset ∧
              pos.colPixelOffset ≥ visibleColWidths.getD 0 0 then 0
          else pos.colPixelOffset
        let rowYPositions := integrateSizes (-rowPixelOffset) visibleRowHeights
        let colXPositions := integrateSizes (-colPixelOffset) visibleColWidths
        match CellRectMap.make α pos.rowNdx pos.colNdx
                (visibleRows : Int) (visibleCols : Int) with
        | .error e => .error e
        | .ok regularCells =>
          match CellRectMap.make α pos.rowNdx 0 (visibleRows : Int) 1 with
          | .error e => .error e
          | .ok macroCells =>
            .ok { viewportPosition :=
                    { pos with rowPixelOffset := rowPixelOffset,
                               colPixelOffset := colPixelOffset },
                  viewportHeight, viewportWidth, visibleRows, visibleCols,
                  visibleRowHeights, visibleColWidths, visibleMacroCellHeights,
                  rowYPositions, colXPositions, regularCells, macroCells }

/-- `renderCell`: computes the rectangle of one cell, skips it when the
width or pre-overlap height is not positive, prepares the cell against the
optional old cell from the previous identity map of its type, and removes
the old entry from that map when a different cell is returned.
`oldCells` is the previous identity map of this cell type
(`oldRs ? oldRs.regularCells : undefined` in the source, selected by the
caller here); the result carries the emitted cell together with the
rectangle that `positionCell` assigns, plus the possibly pruned old map. -/
def renderCell {α : Type} [DecidableEq α] (rp : RenderParms α)
    (rs : RenderedState α) (oldCells : Option (CellRectMap α))
    (cellType : CellType) (rowNdx colNdx : Int) (relRowNdx relColNdx : Nat) :
    Except String (Option (α × Rect) × Option (CellRectMap α)) :=
  let rowHeight := rs.visibleRowHeights.getD relRowNdx 0
  let macroCellHeight :=
    match rs.visibleMacroCellHeights with
    | some mh => min (mh.getD relRowNdx 0) rowHeight
    | none => 0
  let x : Int :=
    match cellType with
    | .regular => rs.colXPositions.getD relColNdx 0
    | .macroCell => 0
  let y0 : Int :=
    match cellType with
    | .regular => rs.rowYPositions.getD relRowNdx 0
    | .macroCell => rs.rowYPositions.getD relRowNdx 0 + rowHeight - macroCellHeight
  let width : Int :=
    match cellType with
    | .regular => rs.visibleColWidths.getD relColNdx 0
    | .macroCell => rp.macroCellWidth
  let height0 : Int :=
    match cellType with
    | .regular => rowHeight - macroCellHeight
    | .macroCell => macroCellHeight
  if width ≤ 0 ∨ height0 ≤ 0 then
    .ok (none, oldCells)
  else
    let y := y0 - rp.vCellOverlap
    let height := height0 + rp.vCellOverlap
    match (match oldCells with
           | some m => m.get rowNdx colNdx
           | none => .ok none) with
    | .error e => .error e
    | .ok oldCell =>
      let cell := rp.prepareCell cellType rowNdx colNdx width height oldCell
      match oldCell with
      | some oc =>
        if cell ≠ oc then
          match oldCells with
          | some m =>
            (match m.delete rowNdx colNdx with
             | .error e => .error e
             | .ok m1 => .ok (some (cell, ⟨x, y, width, height⟩), some m1))
          | none => .error "Invalid cell position."
        else
          .ok (some (cell, ⟨x, y, width, height⟩), oldCells)
      | none =>
        .ok (some (cell, ⟨x, y, width, height⟩), oldCells)

/-- The mutable state threaded through the `renderCells` loops: the two
fresh identity maps being filled and the two old identity maps that
`renderCell` may prune. -/
structure RState (α : Type) where
  reg : CellRectMap α
  mac : CellRectMap α
  oldReg : Option (CellRectMap α)
  oldMac : Option (CellRectMap α)

/-- Inner loop of `renderCells`: the regular cells of one row, in
increasing relative column order. -/
def renderColsLoop {α : Type} [DecidableEq α] (rp : RenderParms α)
    (rs : RenderedState α) (relRowNdx : Nat) :
    List Nat → RState α → Except String (RState α)
  | [], st => .ok st
  | relColNdx :: rest, st =>
    let rowNdx := rp.viewportPosition.rowNdx + relRowNdx
    let colNdx := rs.viewportPosition.colNdx + relColNdx
    match renderCell rp rs st.oldReg .regular rowNdx colNdx relRowNdx relColNdx with
    | .error e => .error e
    | .ok r =>
      match r.1 with
      | some cellRect =>
        (match st.reg.set rowNdx colNdx (some cellRect.1) with
         | .error e => .error e
         | .ok m => renderColsLoop rp rs relRowNdx rest ⟨m, st.mac, r.2, st.oldMac⟩)
      | none => renderColsLoop rp rs relRowNdx rest ⟨st.reg, st.mac, r.2, st.oldMac⟩

/-- Outer loop of `renderCells`: for each visible row, the regular cells
and then the macro cell of the row. -/
def renderRowsLoop {α : Type} [DecidableEq α] (rp : RenderParms α)
    (rs : RenderedState α) :
    List Nat → RState α → Except String (RState α)
  | [], st => .ok st
  | relRowNdx :: rest, st =>
    let rowNdx := rp.viewportPosition.rowNdx + relRowNdx
    match renderColsLoop rp rs relRowNdx (List.range rs.visibleCols) st with
    | .error e => .error e
    | .ok st1 =>
      match renderCell rp rs st1.oldMac .macroCell rowNdx 0 relRowNdx 0 with
      | .error e => .error e
      | .ok r =>
        match r.1 with
        | some cellRect =>
          (match st1.mac.set rowNdx 0 (some cellRect.1) with
           | .error e => .error e
           | .ok m => renderRowsLoop rp rs rest ⟨st1.reg, m, st1.oldReg, r.2⟩)
        | none => renderRowsLoop rp rs rest ⟨st1.reg, st1.mac, st1.oldReg, r.2⟩

/-- `renderCells`: fills the two fresh identity maps of `rs` and prunes the
old maps, visiting rows and columns in increasing order. -/
def renderCells {α : Type} [DecidableEq α] (rp : RenderParms α)
    (rs : RenderedState α)
    (oldRegular oldMacroCells : Option (CellRectMap α)) :
    Except String (RState α) :=
  renderRowsLoop rp rs (List.range rs.visibleRows)
    ⟨rs.regularCells, rs.macroCells, oldRegular, oldMacroCells⟩

/-- The window geometry that `initRender` gives the fresh regular-cell
identity map: anchored at the viewport position and sized to the visible
extent. -/
def regWindow {α : Type} (rp : RenderParms α) (rs : RenderedState α)
    (m : CellRectMap α) : Prop :=
  m.rowOffset = rp.viewportPosition.rowNdx ∧
  m.colOffset = rs.viewportPosition.colNdx ∧
  m.rowCount = (rs.visibleRows : Int) ∧
  m.colCount = (rs.visibleCols : Int)

/-- The window geometry that `initRender` gives the fresh macro-cell
identity map: one column at index 0. -/
def macWindow {α : Type} (rp : RenderParms α) (rs : RenderedState α)
    (m : CellRectMap α) : Prop :=
  m.rowOffset = rp.viewportPosition.rowNdx ∧
  m.colOffset = 0 ∧
  m.rowCount = (rs.visibleRows : Int) ∧
  m.colCount = 1

/-- The rendered state that `initRender` produces when the viewport
position is valid and the two scans return `bR` and `bC` without touching
the size arrays (used to state lemmas about `initRender`; the definition
mirrors the success path of `initRender` literally). -/
def resolvedState (α : Type) (ctrl : LayoutController α) (rp : RenderParms α)
    (bR bC : Nat) : RenderedState α :=
  let pos := rp.viewportPosition
  let visibleRows := bR - pos.rowNdx.toNat
  let visibleCols := bC - pos.colNdx.toNat
  let visibleRowHeights := listSlice rp.rowHeights pos.rowNdx.toNat bR
  let visibleColWidths := listSlice rp.colWidths pos.colNdx.toNat bC
  let rowPixelOffset :=
    if 0 < visibleRows ∧ 0 < pos.rowPixelOffset ∧
        pos.rowPixelOffset ≥ visibleRowHeights.getD 0 0 then 0
    else pos.rowPixelOffset
  let colPixelOffset :=
    if 0 < visibleCols ∧ 0 < pos.colPixelOffset ∧
        pos.colPixelOffset ≥ visibleColWidths.getD 0 0 then 0
    else pos.colPixelOffset
  { viewportPosition :=
      { pos with rowPixelOffset := rowPixelOffset,
                 colPixelOffset := colPixelOffset },
    viewportHeight := ctrl.viewportHeight,
    viewportWidth := ctrl.viewportWidth,
    visibleRows, visibleCols, visibleRowHeights, visibleColWidths,
    visibleMacroCellHeights :=
      rp.macroCellHeights.map (fun mh => listSlice mh pos.rowNdx.toNat bR),
    rowYPositions := integrateSizes (-rowPixelOffset) visibleRowHeights,
    colXPositions := integrateSizes (-colPixelOffset) visibleColWidths,
    regularCells := ⟨pos.rowNdx, pos.colNdx, (visibleRows : Int), (visibleCols : Int),
      List.replicate ((visibleRows : Int) * (visibleCols : Int)).toNat none⟩,
    macroCells := ⟨pos.rowNdx, 0, (visibleRows : Int), 1,
      List.replicate ((visibleRows : Int) * 1).toNat none⟩ }

/-- The handles a `CellRectMap` still holds, in array order
(what `releaseCells` passes to the release callback). -/
def remainingCells {α : Type} : Option (CellRectMap α) → List α
  | some m => m.getAll.filterMap id
  | none => []

/-- `render()`: runs `initRender` (committing the fresh state as the
source does at the end of `initRender`), then `renderCells`, then releases
the cells remaining in the previous render state.  The result pairs the
controller after the call with either the list of handles passed to the
release callback (empty when none is supplied) or the thrown error. -/
def LayoutController.render {α : Type} [DecidableEq α] (ctrl : LayoutController α)
    (rp : RenderParms α) :
    LayoutController α × Except String (List α) :=
  let oldRs := ctrl.renderedState
  match ctrl.initRender rp with
  | .error e => (ctrl, .error e)
  | .ok rs =>
    match renderCells rp rs (oldRs.map (·.regularCells)) (oldRs.map (·.macroCells)) with
    | .error e => ({ctrl with renderedState := some rs}, .error e)
    | .ok st =>
      let rs1 := {rs with regularCells := st.reg, macroCells := st.mac}
      let released :=
        if rp.releaseCell then
          remainingCells st.oldReg ++ remainingCells st.oldMac
        else []
      ({ctrl with renderedState := some rs1}, .ok released)

end GridLayout

namespace GridScroll

/-- The scroll units (const enum `ScrollUnit` of src/src/GridScroll.ts). -/
inductive ScrollUnit where
  | absPosition
  | propPosition
  | smallIncr
  | mediumIncr
  | largeIncr
deriving DecidableEq, Repr

/-- The result of the scroll-measure callback: the element sizes covered by
the scan and the pixel distance actually covered (`MeasureResult`, whose
declaration lives outside the given sources; its two fields are fixed by
their uses `r.sizes.length` and `r.distance` in `process`). -/
structure MeasureResult where
  sizes : List ℚ
  distance : ℚ

/-- The scroll-measure callback: start index and signed pixel distance. -/
def ScrollMeasureFn : Type := ℚ → ℚ → MeasureResult

/-- Input parameters of `process` (interface `InputParms`).  JS numbers are
modelled as rationals except the element count, which is documented as an
integer. -/
structure InputParms where
  scrollUnit : ScrollUnit
  scrollValue : ℚ
  topNdx : ℚ
  elementCount : Int
  viewportSize : ℚ
  measure : ScrollMeasureFn

/-- Output parameters of `process` (interface `OutputParms`). -/
structure OutputParms where
  topNdx : Int
  scrollbarPosition : ℚ
  scrollbarThumbSize : ℚ
deriving DecidableEq, Repr

/-- `Math.sign` on a rational. -/
def jsSign (q : ℚ) : ℚ :=
  if 0 < q then 1 else if q < 0 then -1 else 0

/-- `Math.round` on a rational: the floor of `q + 1/2`. -/
def jsRound (q : ℚ) : Int :=
  ⌊q + 1 / 2⌋

/-- `estimateScrollbarThumbSize`: samples the measured distance over four
viewports and extrapolates the average element size over the whole extent.
JS division is modelled by rational division (the degenerate zero
denominator, `Infinity` in JS, is not reached by any claim). -/
def estimateScrollbarThumbSize (ip : InputParms) : ℚ :=
  let sampleFactor : ℚ := 4
  let r := ip.measure 0 (ip.viewportSize * sampleFactor)
  let n : ℚ := max 1 (r.sizes.length : ℚ)
  ip.viewportSize / (r.distance / n * ((ip.elementCount : ℚ) - 1) + ip.viewportSize)

/-- `process(ip)`: degenerate grids return the zero output at once; the
five scroll units compute a raw top index, which is rounded and clamped to
`[0, elementCount-1]`; scrollbar position and thumb size are derived.
The `default` throw of the source switch is unreachable over the closed
`ScrollUnit` type. -/
def process (ip : InputParms) : OutputParms :=
  if ip.elementCount ≤ 1 ∨ ip.viewportSize ≤ 0 then
    ⟨0, 0, 0⟩
  else
    let topNdxRaw : ℚ :=
      match ip.scrollUnit with
      | .absPosition => ip.scrollValue
      | .propPosition => ip.scrollValue * ((ip.elementCount : ℚ) - 1)
      | .smallIncr => ip.topNdx + ip.scrollValue
      | .mediumIncr => ip.topNdx + ip.scrollValue * 3
      | .largeIncr =>
        let d1 := ip.scrollValue * ip.viewportSize
        let r := ip.measure ip.topNdx d1
        let n := r.sizes.length
        let d2 := max 1 (if |d1| < r.distance then (n : ℚ) - 1 else (n : ℚ))
        ip.topNdx + d2 * jsSign ip.scrollValue
    let topNdx := max 0 (min (ip.elementCount - 1) (jsRound topNdxRaw))
    let scrollbarPosition := (topNdx : ℚ) / ((ip.elementCount : ℚ) - 1)
    let scrollbarThumbSize := estimateScrollbarThumbSize ip
    ⟨topNdx, scrollbarPosition, scrollbarThumbSize⟩

end GridScroll

/-! Auxiliary definitions used by the theorems below. -/

/-- The sum of the sizes at positions `s .. e-1` of a size array
(the accumulated distance of a scan from `s` to `e`). -/
def sizeSum (a : List Int) (s e : Nat) : Int :=
  (listSlice a s e).sum

/-- The running position of `integrateSizes` after consuming a size list:
the start position plus the accumulated `max 0` sizes. -/
def accumPos (startPos : Int) (sizes : List Int) : Int :=
  sizes.foldl (fun p s => p + max 0 s) startPos

/-- Modelled from the spec: the backward-scan contract that claim C5
attributes to `scanDistance` for a negative distance — scanning backward
from `start`, decrementing the index before reading its size, the end
index `e` is the smallest one whose accumulated size
`sizes[e .. start-1]` reaches `|distance|`, or the boundary index 0 when
the total available distance is insufficient. -/
def backwardScanSpec (a : List Int) (start : Nat) (distance : Int) (e : Nat) : Prop :=
  e ≤ start ∧
  (∀ j < start + 1, e < j → sizeSum a j start < -distance) ∧
  (-distance ≤ sizeSum a e start ∨ e = 0)

/-! Concrete inputs used by counterexamples and witnesses. -/

section Examples

open GridLayout

/-- A 1x1 grid, 10x10 viewport, release callback supplied, and a cell
factory that reuses the old cell whenever one is offered (like the demo
prepareCell of the demo application). -/
def c1rp : RenderParms Nat := {
  viewportPosition := ⟨0, 0, 0, 0⟩
  rowHeights := [20]
  colWidths := [20]
  macroCellHeights := none
  macroCellWidth := 0
  vCellOverlap := 0
  measure := none
  prepareCell := fun _ r c _ _ old => old.getD (100 + r.toNat * 10 + c.toNat)
  releaseCell := true }

/-- Same parameters with a cell factory that always creates a fresh cell,
never reusing the offered old cell. -/
def c1rpFresh : RenderParms Nat :=
  { c1rp with prepareCell := fun _ r c _ _ _ => 200 + r.toNat * 10 + c.toNat }

/-- A fresh controller over a 10x10 viewport. -/
def c1ctrl0 : LayoutController Nat := ⟨10, 10, none⟩

/-- The controller after the first render: cell 100 is tracked at (0,0). -/
def c1ctrl1 : LayoutController Nat := (c1ctrl0.render c1rp).1

/-- Render parameters whose pixel offsets (25 and 30) both exceed the
20-pixel size of the first visible row and column. -/
def c2rp : RenderParms Nat :=
  { c1rp with viewportPosition := ⟨0, 0, 25, 30⟩ }

/-- A 1x1 cell map with window rows `[0,1)`, columns `[0,1)`
(the result of `new CellRectMap(0, 0, 1, 1)`). -/
def c3map : CellRectMap Nat := ⟨0, 0, 1, 1, [none]⟩

/-- Render parameters whose macro-size array length (2) mismatches the
row-size array length (1); no release callback. -/
def c4rp : RenderParms Nat :=
  { c1rp with macroCellHeights := some [0, 0], releaseCell := false }

/-- Render parameters with an invalid (negative row index) viewport
position. -/
def badViewportRp : RenderParms Nat := {
  viewportPosition := ⟨-1, 0, 0, 0⟩
  rowHeights := [20]
  colWidths := [20]
  macroCellHeights := none
  macroCellWidth := 0
  vCellOverlap := 0
  measure := none
  prepareCell := fun _ _ _ _ _ _ => 0
  releaseCell := true }

/-- A fresh controller used with the invalid viewport position. -/
def c4ctrl : LayoutController Nat := ⟨10, 10, none⟩

/-- A controller used to observe that a failing render leaves the stored
rendered state untouched. -/
def c6ctrl : LayoutController Nat := ⟨10, 10, none⟩

/-- A rendered state visible at one row of height 30 with macro height 10
at y position 40, one column of width 20 at x position 0 (the geometry of
E2E scenario C of the spec).  `renderCell` reads only the arrays of this
state, so the identity-map fields are left empty. -/
def c7rs : RenderedState Nat := {
  viewportPosition := ⟨2, 0, 0, 0⟩
  viewportHeight := 100
  viewportWidth := 100
  visibleRows := 1
  visibleCols := 1
  visibleRowHeights := [30]
  visibleColWidths := [20]
  visibleMacroCellHeights := some [10]
  rowYPositions := [40, 70]
  colXPositions := [0, 20]
  regularCells := ⟨2, 0, 0, 0, []⟩
  macroCells := ⟨2, 0, 0, 0, []⟩ }

/-- Render parameters with vertical cell overlap 0 and macro cell width
50, with a constant cell factory. -/
def c7rp : RenderParms Nat := {
  viewportPosition := ⟨2, 0, 0, 0⟩
  rowHeights := [30]
  colWidths := [20]
  macroCellHeights := some [10]
  macroCellWidth := 50
  vCellOverlap := 0
  measure := none
  prepareCell := fun _ _ _ _ _ _ => 7
  releaseCell := false }

/-- The same render parameters with vertical cell overlap 1. -/
def c7rpOverlap : RenderParms Nat := { c7rp with vCellOverlap := 1 }

/-- E2E scenario D of the spec: large-increment scroll of value +1 from
top index 5 over a 100-pixel viewport of 20-pixel elements; the measure
callback reports five elements covering exactly 100 pixels. -/
def c9ip : GridScroll.InputParms := {
  scrollUnit := .largeIncr
  scrollValue := 1
  topNdx := 5
  elementCount := 100
  viewportSize := 100
  measure := fun _ _ => ⟨List.replicate 5 (20 : ℚ), 100⟩ }

/-- A degenerate scroll input: a single element. -/
def c10ip : GridScroll.InputParms := { c9ip with elementCount := 1 }

end Examples

open GridLayout

/-! General lemmas. -/

theorem toInt16_eq_self {x : Int} (h1 : -32768 ≤ x) (h2 : x < 32768) :
    toInt16 x = x := by
  unfold toInt16
  omega

/-! Claim C8: `integrateSizes` boundaries.  As universally stated the claim
fails, because the boundaries are stored into an `Int16Array` and wrap at
the signed 16-bit range; it holds whenever every running position stays in
that range. -/

/-- C8 (counterexample): with start position 0 and sizes `[30000, 30000]`
(both legal `Int16Array` entries), the stored boundaries are
`[0, 30000, -5536]` because the running position 60000 wraps, so
`boundaries[2] - boundaries[1]` is not `max 0 sizes[1]`. -/
theorem c8_wrap_counterexample :
    integrateSizes 0 [30000, 30000] = [0, 30000, -5536] ∧
    (integrateSizes 0 [30000, 30000]).getD 2 0 - (integrateSizes 0 [30000, 30000]).getD 1 0 ≠
      max 0 (([30000, 30000] : List Int).getD 1 0) := by
  exact ⟨by decide, by decide⟩

/-- C8 (amended): for every starting offset and size array whose running
positions (start plus accumulated `max 0` sizes) all fit the signed 16-bit
range, `integrateSizes` returns exactly `n+1` boundaries with
`boundaries[0]` the starting offset and `boundaries[i+1] - boundaries[i] =
max 0 sizes[i]` for every `i < n`. -/
theorem c8_integrate_boundaries (startPos : Int) (sizes : List Int)
    (h : ∀ i ≤ sizes.length, -32768 ≤ accumPos startPos (sizes.take i) ∧
           accumPos startPos (sizes.take i) < 32768) :
    (integrateSizes startPos sizes).length = sizes.length + 1 ∧
    (integrateSizes startPos sizes).getD 0 0 = startPos ∧
    ∀ i < sizes.length,
      (integrateSizes startPos sizes).getD (i + 1) 0 -
        (integrateSizes startPos sizes).getD i 0 = max 0 (sizes.getD i 0) := by
  induction sizes generalizing startPos with
  | nil =>
    have h0 := h 0 (by simp)
    simp only [List.take_nil, accumPos, List.foldl_nil] at h0
    refine ⟨rfl, ?_, by intro i hi; simp at hi⟩
    simpa [integrateSizes] using toInt16_eq_self h0.1 h0.2
  | cons x rest ih =>
    have h0 := h 0 (by simp)
    simp only [List.take_zero, accumPos, List.foldl_nil] at h0
    have hs : toInt16 startPos = startPos := toInt16_eq_self h0.1 h0.2
    have hrec := ih (startPos + max 0 x) (fun i hi => by
      have hx := h (i + 1) (by simpa using Nat.succ_le_succ hi)
      simpa [accumPos, List.take_succ_cons, List.foldl_cons] using hx)
    obtain ⟨hl, hh, hd⟩ := hrec
    refine ⟨by simp [integrateSizes, hl], by simpa [integrateSizes] using hs, ?_⟩
    intro i hi
    cases i with
    | zero =>
      have e1 : (integrateSizes startPos (x :: rest)).getD 1 0 = startPos + max 0 x := by
        show (toInt16 startPos :: integrateSizes (startPos + max 0 x) rest).getD 1 0 = _
        rw [List.getD_cons_succ]
        exact hh
      have e0 : (integrateSizes startPos (x :: rest)).getD 0 0 = startPos := by
        show (toInt16 startPos :: integrateSizes (startPos + max 0 x) rest).getD 0 0 = _
        rw [List.getD_cons_zero]
        exact hs
      rw [e1, e0, List.getD_cons_zero]
      omega
    | succ j =>
      have hj : j < rest.length := by simpa using hi
      have e2 : (integrateSizes startPos (x :: rest)).getD (j + 2) 0 =
          (integrateSizes (startPos + max 0 x) rest).getD (j + 1) 0 := by
        show (toInt16 startPos :: integrateSizes (startPos + max 0 x) rest).getD (j + 2) 0 = _
        rw [List.getD_cons_succ]
      have e1 : (integrateSizes startPos (x :: rest)).getD (j + 1) 0 =
          (integrateSizes (startPos + max 0 x) rest).getD j 0 := by
        show (toInt16 startPos :: integrateSizes (startPos + max 0 x) rest).getD (j + 1) 0 = _
        rw [List.getD_cons_succ]
      rw [e2, e1, List.getD_cons_succ]
      exact hd j hj

/-- C8 (witness): the amended claim evaluated at start position -5 and
sizes `[20, 30]`. -/
theorem c8_integrate_boundaries_witness :
    (∀ i ≤ ([20, 30] : List Int).length, -32768 ≤ accumPos (-5) (([20, 30] : List Int).take i) ∧
       accumPos (-5) (([20, 30] : List Int).take i) < 32768) ∧
    ((integrateSizes (-5) [20, 30]).length = ([20, 30] : List Int).length + 1 ∧
     (integrateSizes (-5) [20, 30]).getD 0 0 = -5 ∧
     ∀ i < ([20, 30] : List Int).length,
       (integrateSizes (-5) [20, 30]).getD (i + 1) 0 -
         (integrateSizes (-5) [20, 30]).getD i 0 = max 0 (([20, 30] : List Int).getD i 0)) :=
  ⟨by decide, c8_integrate_boundaries (-5) [20, 30] (by decide)⟩

/-! Claim C10: degenerate scroll inputs. -/

/-- C10: for every scroll input with at most one element or a non-positive
viewport size, `process` returns exactly `{topNdx: 0, scrollbarPosition: 0,
scrollbarThumbSize: 0}`, whatever the scroll unit, scroll value and measure
callback are (the quantification over `ip` covers every measure callback,
which is therefore never consulted). -/
theorem c10_degenerate_input (ip : GridScroll.InputParms)
    (h : ip.elementCount ≤ 1 ∨ ip.viewportSize ≤ 0) :
    GridScroll.process ip = ⟨0, 0, 0⟩ := by
  unfold GridScroll.process
  rw [if_pos h]

/-- C10 (witness): a one-element grid. -/
theorem c10_degenerate_input_witness :
    (c10ip.elementCount ≤ 1 ∨ c10ip.viewportSize ≤ 0) ∧
    GridScroll.process c10ip = ⟨0, 0, 0⟩ :=
  ⟨Or.inl (by decide), c10_degenerate_input c10ip (Or.inl (by decide))⟩

/-! Claim C3: out-of-window accesses on `CellRectMap`.  `set` and `delete`
do throw, but `get` answers an out-of-window coordinate normally with
`undefined`, so the claim that all three operations reject is false. -/

/-- C3 (counterexample): on the map constructed with window
`(0, 0, 1, 1)`, the out-of-window access `get(5, 5)` is answered with the
normal, non-throwing result `undefined`. -/
theorem c3_get_out_of_window_counterexample :
    CellRectMap.make Nat 0 0 1 1 = .ok c3map ∧
    c3map.rowOffset + c3map.rowCount ≤ 5 ∧
    c3map.get 5 5 = .ok none :=
  ⟨rfl, by decide, rfl⟩

/-- C3 (amended): for every `CellRectMap` and coordinate outside its
window, `set` and `delete` throw "Invalid cell position." while `get`
returns `undefined` without throwing. -/
theorem c3_out_of_window_ops {α : Type} (m : CellRectMap α) (r c : Int) (v : Option α)
    (h : r < m.rowOffset ∨ m.rowOffset + m.rowCount ≤ r ∨
         c < m.colOffset ∨ m.colOffset + m.colCount ≤ c) :
    m.set r c v = .error "Invalid cell position." ∧
    m.delete r c = .error "Invalid cell position." ∧
    m.get r c = .ok none := by
  have hidx : m.getArrayIndex r c = none := by
    unfold CellRectMap.getArrayIndex
    rw [if_pos (by omega)]
  refine ⟨?_, ?_, ?_⟩ <;>
    simp [CellRectMap.set, CellRectMap.delete, CellRectMap.get, hidx]

/-- C3 (witness): the amended claim at the concrete map and coordinate
(5, 5). -/
theorem c3_out_of_window_ops_witness :
    (5 < c3map.rowOffset ∨ c3map.rowOffset + c3map.rowCount ≤ 5 ∨
     5 < c3map.colOffset ∨ c3map.colOffset + c3map.colCount ≤ 5) ∧
    (c3map.set 5 5 (some 0) = .error "Invalid cell position." ∧
     c3map.delete 5 5 = .error "Invalid cell position." ∧
     c3map.get 5 5 = .ok none) :=
  ⟨Or.inr (Or.inl (by decide)),
   c3_out_of_window_ops c3map 5 5 (some 0) (Or.inr (Or.inl (by decide)))⟩

/-! Lemmas about `sizeSum` and `scanDistance`. -/

theorem sizeSum_self (a : List Int) (s : Nat) : sizeSum a s s = 0 := by
  unfold sizeSum listSlice
  have h : (a.take s).length ≤ s := by
    rw [List.length_take]
    omega
  rw [List.drop_eq_nil_iff.mpr h, List.sum_nil]

theorem sizeSum_decompose (a : List Int) (i j : Nat) (hij : i < j)
    (hi : i < a.length) :
    sizeSum a i j = a.getD i 0 + sizeSum a (i + 1) j := by
  unfold sizeSum listSlice
  have hlen : i < (a.take j).length := by
    rw [List.length_take]
    omega
  rw [List.drop_eq_getElem_cons hlen, List.sum_cons]
  have he : (a.take j)[i] = a[i] := by
    have h1 : (a.take j)[i]? = a[i]? := List.getElem?_take_of_lt hij
    rw [List.getElem?_eq_getElem hlen, List.getElem?_eq_getElem hi] at h1
    exact Option.some.inj h1
  rw [he, List.getD_eq_getElem a 0 hi]

/-- One unfolding step of `scanLoop` with positive fuel. -/
theorem scanLoop_succ (meas : Option MeasureFn) (orient : Bool)
    (dist : Int) (n fuel : Nat) (a : List Int) (i : Nat) (d : Int) :
    scanLoop meas orient dist n (fuel + 1) a i d =
      if d < dist then
        if a.getD i 0 = -1 then
          match meas with
          | none =>
            .error "Undetermined rowHeights/colWidths value encountered but measure function is undefined."
          | some f =>
            let a1 := f a i (min 25 (n - i)) orient
            if a1.getD i 0 = -1 then
              .error "rowHeights/colWidths value stayed undetermined even after measure function was called."
            else
              scanLoop meas orient dist n fuel a1 (i + 1) (d + max 0 (a1.getD i 0))
        else
          scanLoop meas orient dist n fuel a (i + 1) (d + max 0 (a.getD i 0))
      else
        .ok (i, a) :=
  rfl

/-- The loop of `scanDistance` on a fully resolved, non-negative size
array: it neither fails nor consults the measure callback, and the
returned end index is the minimal one whose accumulated size reaches the
remaining distance, unless it hits the end of the array. -/
theorem scanLoop_resolved (meas : Option MeasureFn) (orient : Bool)
    (dist : Int) (a : List Int) (hnn : ∀ x ∈ a, 0 ≤ x) :
    ∀ (fuel i : Nat) (d : Int), a.length - i = fuel → i ≤ a.length →
    ∃ e, scanLoop meas orient dist a.length fuel a i d = .ok (e, a) ∧
      i ≤ e ∧ e ≤ a.length ∧
      (∀ j, i ≤ j → j < e → d + sizeSum a i j < dist) ∧
      (dist ≤ d + sizeSum a i e ∨ e = a.length) := by
  intro fuel
  induction fuel with
  | zero =>
    intro i d hfuel hi
    have hie : i = a.length := by omega
    refine ⟨i, rfl, le_refl _, hi, ?_, Or.inr hie⟩
    intro j h1 h2
    omega
  | succ fuel ih =>
    intro i d hfuel hi
    have hilt : i < a.length := by omega
    by_cases hd : d < dist
    · have hw : a.getD i 0 = a[i] := List.getD_eq_getElem a 0 hilt
      have hwnn : 0 ≤ a.getD i 0 := by
        rw [hw]
        exact hnn _ (List.getElem_mem hilt)
      have hw1 : ¬ (a.getD i 0 = -1) := by omega
      have hmax : max 0 (a.getD i 0) = a.getD i 0 := max_eq_right hwnn
      obtain ⟨e, heq, h1, h2, hmin, hfin⟩ :=
        ih (i + 1) (d + max 0 (a.getD i 0)) (by omega) (by omega)
      refine ⟨e, ?_, by omega, h2, ?_, ?_⟩
      · rw [scanLoop_succ]
        simp only [if_pos hd, if_neg hw1]
        exact heq
      · intro j hj1 hj2
        rcases eq_or_lt_of_le hj1 with hj | hj3
        · rw [← hj, sizeSum_self]
          simpa using hd
        · have hmj := hmin j (by omega) hj2
          rw [sizeSum_decompose a i j hj3 hilt]
          omega
      · rcases hfin with hge | hlen
        · left
          have hie : i < e := by omega
          rw [sizeSum_decompose a i e hie hilt]
          omega
        · exact Or.inr hlen
    · refine ⟨i, ?_, le_refl _, hi, ?_, Or.inl ?_⟩
      · rw [scanLoop_succ]
        simp only [if_neg hd]
      · intro j h1 h2
        omega
      · rw [sizeSum_self]
        omega

/-! Claim C5: `scanDistance`.  The forward half of the claim holds, but
`scanDistance` never scans backward: for a negative distance the loop
condition `d < distance` is false at once and the start index is returned
unchanged, so the claimed backward contract fails. -/

/-- C5 (counterexample): scanning from start index 2 with distance -20
over sizes `[20, 20]`, the claimed backward contract demands end index 1,
but `scanDistance` returns the start index 2 unchanged, which satisfies
neither the accumulated-distance condition nor the boundary condition of
the claim. -/
theorem c5_backward_counterexample :
    scanDistance [20, 20] 2 (-20) none true = .ok (2, [20, 20]) ∧
    ¬ backwardScanSpec [20, 20] 2 (-20) 2 :=
  ⟨rfl, by unfold backwardScanSpec; decide⟩

/-- On a fully resolved size array of non-negative entries, `scanDistance`
scans forward only: it returns (without consulting any measure callback,
and leaving the array unchanged) the smallest end index whose accumulated
size reaches the distance, or the array length when the available distance
is insufficient; for a distance that is zero or negative it returns the
start index unchanged instead of scanning backward. -/
theorem scanDistance_resolved_spec (a : List Int) (startNdx : Nat) (dist : Int)
    (meas : Option MeasureFn) (orient : Bool)
    (hnn : ∀ x ∈ a, 0 ≤ x) (hs : startNdx ≤ a.length) :
    ∃ e, scanDistance a startNdx dist meas orient = .ok (e, a) ∧
      startNdx ≤ e ∧ e ≤ a.length ∧
      (∀ j, startNdx ≤ j → j < e → sizeSum a startNdx j < dist) ∧
      (dist ≤ sizeSum a startNdx e ∨ e = a.length) ∧
      (dist ≤ 0 → e = startNdx) := by
  obtain ⟨e, heq, h1, h2, hmin, hfin⟩ :=
    scanLoop_resolved meas orient dist a hnn (a.length - startNdx) startNdx 0 rfl hs
  refine ⟨e, heq, h1, h2, ?_, ?_, ?_⟩
  · intro j hj1 hj2
    simpa using hmin j hj1 hj2
  · simpa using hfin
  · intro hd0
    by_contra hne
    have hlt : startNdx < e := lt_of_le_of_ne h1 (Ne.symm hne)
    have hm := hmin startNdx (le_refl _) hlt
    rw [sizeSum_self] at hm
    omega

/-- C5 (amended, claim theorem): restatement of
`scanDistance_resolved_spec` as the claim about `scanDistance`. -/
theorem c5_scan_forward (a : List Int) (startNdx : Nat) (dist : Int)
    (meas : Option MeasureFn) (orient : Bool)
    (hnn : ∀ x ∈ a, 0 ≤ x) (hs : startNdx ≤ a.length) :
    ∃ e, scanDistance a startNdx dist meas orient = .ok (e, a) ∧
      startNdx ≤ e ∧ e ≤ a.length ∧
      (∀ j, startNdx ≤ j → j < e → sizeSum a startNdx j < dist) ∧
      (dist ≤ sizeSum a startNdx e ∨ e = a.length) ∧
      (dist ≤ 0 → e = startNdx) :=
  scanDistance_resolved_spec a startNdx dist meas orient hnn hs

/-- C5 (witness): the amended claim at sizes all 20 from start 0 with
distance 45 — the scan stops after three elements (accumulated 60). -/
theorem c5_scan_forward_witness :
    (∀ x ∈ ([20, 20, 20, 20, 20, 20] : List Int), 0 ≤ x) ∧
    (0 ≤ ([20, 20, 20, 20, 20, 20] : List Int).length) ∧
    (∃ e, scanDistance [20, 20, 20, 20, 20, 20] 0 45 none true =
        .ok (e, [20, 20, 20, 20, 20, 20]) ∧
      0 ≤ e ∧ e ≤ ([20, 20, 20, 20, 20, 20] : List Int).length ∧
      (∀ j, 0 ≤ j → j < e → sizeSum [20, 20, 20, 20, 20, 20] 0 j < 45) ∧
      (45 ≤ sizeSum [20, 20, 20, 20, 20, 20] 0 e ∨
        e = ([20, 20, 20, 20, 20, 20] : List Int).length) ∧
      ((45 : Int) ≤ 0 → e = 0)) ∧
    scanDistance [20, 20, 20, 20, 20, 20] 0 45 none true =
      .ok (3, [20, 20, 20, 20, 20, 20]) :=
  ⟨by decide, by omega,
   c5_scan_forward [20, 20, 20, 20, 20, 20] 0 45 none true (by decide) (by omega),
   rfl⟩

/-! Lemmas about `CellRectMap` and the render loops. -/

theorem CellRectMap.getArrayIndex_isSome {α : Type} (m : CellRectMap α)
    (r c : Int) (h1 : m.rowOffset ≤ r) (h2 : r < m.rowOffset + m.rowCount)
    (h3 : m.colOffset ≤ c) (h4 : c < m.colOffset + m.colCount) :
    ∃ i, m.getArrayIndex r c = some i := by
  refine ⟨((r - m.rowOffset) * m.colCount + (c - m.colOffset)).toNat, ?_⟩
  simp only [CellRectMap.getArrayIndex]
  rw [if_neg]
  omega

theorem CellRectMap.set_ok {α : Type} (m : CellRectMap α) (r c : Int)
    (v : Option α) (h1 : m.rowOffset ≤ r) (h2 : r < m.rowOffset + m.rowCount)
    (h3 : m.colOffset ≤ c) (h4 : c < m.colOffset + m.colCount) :
    ∃ m', m.set r c v = .ok m' ∧ m'.rowOffset = m.rowOffset ∧
      m'.colOffset = m.colOffset ∧ m'.rowCount = m.rowCount ∧
      m'.colCount = m.colCount := by
  obtain ⟨i, hi⟩ := CellRectMap.getArrayIndex_isSome m r c h1 h2 h3 h4
  unfold CellRectMap.set
  rw [hi]
  exact ⟨_, rfl, rfl, rfl, rfl, rfl⟩

theorem CellRectMap.get_ok {α : Type} (m : CellRectMap α) (r c : Int) :
    ∃ v, m.get r c = .ok v := by
  rcases hg : m.getArrayIndex r c with _ | i
  · exact ⟨none, by unfold CellRectMap.get; rw [hg]⟩
  · exact ⟨m.a.getD i none, by unfold CellRectMap.get; rw [hg]⟩

theorem CellRectMap.delete_ok_of_get_some {α : Type} (m : CellRectMap α)
    (r c : Int) (x : α) (h : m.get r c = .ok (some x)) :
    ∃ m', m.delete r c = .ok m' := by
  unfold CellRectMap.get at h
  rcases hg : m.getArrayIndex r c with _ | i
  · rw [hg] at h
    simp at h
  · unfold CellRectMap.delete CellRectMap.set
    rw [hg]
    exact ⟨_, rfl⟩

/-- `renderCell` never throws: the old-map lookup cannot throw, and the
old-map pruning only runs after that lookup found an entry, which
guarantees the coordinate is inside the old window. -/
theorem renderCell_ok {α : Type} [DecidableEq α] (rp : RenderParms α)
    (rs : RenderedState α) (oldCells : Option (CellRectMap α))
    (ct : CellType) (rowNdx colNdx : Int) (relRowNdx relColNdx : Nat) :
    ∃ emitted old2,
      renderCell rp rs oldCells ct rowNdx colNdx relRowNdx relColNdx =
        .ok (emitted, old2) := by
  unfold renderCell
  simp only []
  split
  · exact ⟨_, _, rfl⟩
  · rcases oldCells with _ | m
    · exact ⟨_, _, rfl⟩
    · obtain ⟨v, hv⟩ := CellRectMap.get_ok m rowNdx colNdx
      dsimp only
      rw [hv]
      rcases v with _ | oc
      · exact ⟨_, _, rfl⟩
      · dsimp only
        split
        · obtain ⟨m1, hdel⟩ := CellRectMap.delete_ok_of_get_some m rowNdx colNdx oc hv
          rw [hdel]
          exact ⟨_, _, rfl⟩
        · exact ⟨_, _, rfl⟩

/-- The inner render loop succeeds whenever the fresh regular map has the
window geometry of `initRender` and the relative indices stay inside the
visible extent; the fresh macro map is untouched. -/
theorem renderColsLoop_ok {α : Type} [DecidableEq α] (rp : RenderParms α)
    (rs : RenderedState α) (relRowNdx : Nat) (hrow : relRowNdx < rs.visibleRows) :
    ∀ (cols : List Nat) (st : RState α), (∀ x ∈ cols, x < rs.visibleCols) →
      regWindow rp rs st.reg →
    ∃ st', renderColsLoop rp rs relRowNdx cols st = .ok st' ∧
      regWindow rp rs st'.reg ∧ st'.mac = st.mac := by
  intro cols
  induction cols with
  | nil =>
    intro st _ hreg
    exact ⟨st, rfl, hreg, rfl⟩
  | cons c rest ih =>
    intro st hmem hreg
    obtain ⟨emitted, old2, hrc⟩ :=
      renderCell_ok rp rs st.oldReg .regular (rp.viewportPosition.rowNdx + relRowNdx)
        (rs.viewportPosition.colNdx + c) relRowNdx c
    have hc : c < rs.visibleCols := hmem c (List.mem_cons_self c rest)
    have hrest : ∀ x ∈ rest, x < rs.visibleCols :=
      fun x hx => hmem x (List.mem_cons_of_mem _ hx)
    rcases emitted with _ | cellRect
    · obtain ⟨st', hloop, hreg', hmac'⟩ :=
        ih ⟨st.reg, st.mac, old2, st.oldMac⟩ hrest hreg
      refine ⟨st', ?_, hreg', hmac'⟩
      show renderColsLoop rp rs relRowNdx (c :: rest) st = .ok st'
      rw [renderColsLoop, hrc]
      exact hloop
    · obtain ⟨hro, hco, hrc2, hcc⟩ := hreg
      obtain ⟨m', hset, e1, e2, e3, e4⟩ :=
        CellRectMap.set_ok st.reg (rp.viewportPosition.rowNdx + relRowNdx)
          (rs.viewportPosition.colNdx + c) (some cellRect.1)
          (by omega) (by omega) (by omega) (by omega)
      obtain ⟨st', hloop, hreg', hmac'⟩ :=
        ih ⟨m', st.mac, old2, st.oldMac⟩ hrest
          (by exact ⟨by rw [e1, hro], by rw [e2, hco], by rw [e3, hrc2], by rw [e4, hcc]⟩)
      refine ⟨st', ?_, hreg', hmac'⟩
      show renderColsLoop rp rs relRowNdx (c :: rest) st = .ok st'
      rw [renderColsLoop, hrc]
      dsimp only
      rw [hset]
      exact hloop

/-- The outer render loop succeeds whenever both fresh maps have the
window geometry of `initRender` and the row indices stay inside the
visible extent. -/
theorem renderRowsLoop_ok {α : Type} [DecidableEq α] (rp : RenderParms α)
    (rs : RenderedState α) :
    ∀ (rows : List Nat) (st : RState α), (∀ x ∈ rows, x < rs.visibleRows) →
      regWindow rp rs st.reg → macWindow rp rs st.mac →
    ∃ st', renderRowsLoop rp rs rows st = .ok st' := by
  intro rows
  induction rows with
  | nil =>
    intro st _ _ _
    exact ⟨st, rfl⟩
  | cons r rest ih =>
    intro st hmem hreg hmac
    have hr : r < rs.visibleRows := hmem r (List.mem_cons_self r rest)
    have hrest : ∀ x ∈ rest, x < rs.visibleRows :=
      fun x hx => hmem x (List.mem_cons_of_mem _ hx)
    obtain ⟨st1, hloop, hreg1, hmac1⟩ :=
      renderColsLoop_ok rp rs r hr (List.range rs.visibleCols) st
        (fun x hx => List.mem_range.mp hx) hreg
    obtain ⟨emitted, old2, hrc⟩ :=
      renderCell_ok rp rs st1.oldMac .macroCell (rp.viewportPosition.rowNdx + r) 0 r 0
    rcases emitted with _ | cellRect
    · obtain ⟨st', hrest'⟩ :=
        ih ⟨st1.reg, st1.mac, st1.oldReg, old2⟩ hrest hreg1
          (by dsimp only; rw [hmac1]; exact hmac)
      refine ⟨st', ?_⟩
      rw [renderRowsLoop, hloop]
      dsimp only
      rw [hrc]
      exact hrest'
    · have hmac1' : macWindow rp rs st1.mac := by rw [hmac1]; exact hmac
      obtain ⟨hro, hco, hrc2, hcc⟩ := hmac1'
      obtain ⟨m', hset, e1, e2, e3, e4⟩ :=
        CellRectMap.set_ok st1.mac (rp.viewportPosition.rowNdx + r) 0 (some cellRect.1)
          (by omega) (by omega) (by omega) (by omega)
      obtain ⟨st', hrest'⟩ :=
        ih ⟨st1.reg, m', st1.oldReg, old2⟩ hrest hreg1
          (by exact ⟨by rw [e1, hro], by rw [e2, hco], by rw [e3, hrc2], by rw [e4, hcc]⟩)
      refine ⟨st', ?_⟩
      rw [renderRowsLoop, hloop]
      dsimp only
      rw [hrc]
      dsimp only
      rw [hset]
      exact hrest'

theorem CellRectMap.make_ok (α : Type) (a b c d : Int) (h1 : 0 ≤ a)
    (h2 : 0 ≤ b) (h3 : 0 ≤ c) (h4 : 0 ≤ d) :
    CellRectMap.make α a b c d =
      .ok ⟨a, b, c, d, List.replicate (c * d).toNat none⟩ := by
  unfold CellRectMap.make
  rw [if_neg]
  omega

theorem CellRectMap.make_fields {α : Type} {a b c d : Int} {m : CellRectMap α}
    (h : CellRectMap.make α a b c d = .ok m) :
    m.rowOffset = a ∧ m.colOffset = b ∧ m.rowCount = c ∧ m.colCount = d := by
  unfold CellRectMap.make at h
  split at h
  · exact absurd h (by simp)
  · cases h
    exact ⟨rfl, rfl, rfl, rfl⟩

theorem renderCells_ok {α : Type} [DecidableEq α] (rp : RenderParms α)
    (rs : RenderedState α) (oldReg oldMac : Option (CellRectMap α))
    (hreg : regWindow rp rs rs.regularCells)
    (hmac : macWindow rp rs rs.macroCells) :
    ∃ st', renderCells rp rs oldReg oldMac = .ok st' := by
  unfold renderCells
  exact renderRowsLoop_ok rp rs (List.range rs.visibleRows)
    ⟨rs.regularCells, rs.macroCells, oldReg, oldMac⟩
    (fun x hx => List.mem_range.mp hx) hreg hmac

/-- Every rendered state that `initRender` returns carries identity maps
whose windows are anchored at the viewport position and sized to the
visible extent. -/
theorem initRender_windows {α : Type} (ctrl : LayoutController α)
    (rp : RenderParms α) (rs : RenderedState α)
    (h : ctrl.initRender rp = .ok rs) :
    regWindow rp rs rs.regularCells ∧ macWindow rp rs rs.macroCells := by
  unfold LayoutController.initRender at h
  simp only [] at h
  revert h
  split
  · intro h
    exact absurd h (by simp)
  · split
    · intro h
      exact absurd h (by simp)
    · split
      · intro h
        exact absurd h (by simp)
      · split
        · intro h
          exact absurd h (by simp)
        · split
          · intro h
            exact absurd h (by simp)
          · rename_i x1 mReg heqReg x2 mMac heqMac
            intro h
            injection h with h
            subst h
            obtain ⟨f1, f2, f3, f4⟩ := CellRectMap.make_fields heqReg
            obtain ⟨g1, g2, g3, g4⟩ := CellRectMap.make_fields heqMac
            exact ⟨⟨f1, f2, f3, f4⟩, ⟨g1, g2, g3, g4⟩⟩

/-- The first element of a slice. -/
theorem listSlice_head (l : List Int) (s e : Nat) (hse : s < e)
    (hs : s < l.length) :
    (listSlice l s e).getD 0 0 = l.getD s 0 := by
  unfold listSlice
  have hlen : s < (l.take e).length := by
    rw [List.length_take]
    omega
  rw [List.drop_eq_getElem_cons hlen, List.getD_cons_zero]
  have h1 : (l.take e)[s]? = l[s]? := List.getElem?_take_of_lt hse
  rw [List.getElem?_eq_getElem hlen, List.getElem?_eq_getElem hs] at h1
  rw [Option.some.inj h1, List.getD_eq_getElem l 0 hs]

/-- `initRender` on a valid viewport position, when both scans succeed
without touching the size arrays: it returns exactly `resolvedState`. -/
theorem initRender_resolved {α : Type} (ctrl : LayoutController α)
    (rp : RenderParms α) (bR bC : Nat)
    (h1 : 0 ≤ rp.viewportPosition.rowNdx) (h2 : 0 ≤ rp.viewportPosition.colNdx)
    (h3 : 0 ≤ rp.viewportPosition.rowPixelOffset)
    (h4 : 0 ≤ rp.viewportPosition.colPixelOffset)
    (hscanR : scanDistance rp.rowHeights rp.viewportPosition.rowNdx.toNat
        (rp.viewportPosition.rowPixelOffset + ctrl.viewportHeight)
        rp.measure true = .ok (bR, rp.rowHeights))
    (hscanC : scanDistance rp.colWidths rp.viewportPosition.colNdx.toNat
        (rp.viewportPosition.colPixelOffset + ctrl.viewportWidth)
        rp.measure false = .ok (bC, rp.colWidths)) :
    ctrl.initRender rp = .ok (resolvedState α ctrl rp bR bC) := by
  unfold LayoutController.initRender
  simp only []
  rw [if_neg (by omega), hscanR]
  dsimp only
  rw [hscanC]
  dsimp only
  rw [CellRectMap.make_ok α rp.viewportPosition.rowNdx rp.viewportPosition.colNdx
        ((bR - rp.viewportPosition.rowNdx.toNat : Nat) : Int)
        ((bC - rp.viewportPosition.colNdx.toNat : Nat) : Int)
        h1 h2 (by omega) (by omega)]
  dsimp only
  rw [CellRectMap.make_ok α rp.viewportPosition.rowNdx 0
        ((bR - rp.viewportPosition.rowNdx.toNat : Nat) : Int) 1
        h1 (by omega) (by omega) (by omega)]
  rfl

/-! Claim C6: no partial commit on fatal errors.  All fatal errors of
`render()` (invalid viewport position, measurement contract violations)
are raised inside `initRender` before the fresh state is committed, and
the reconciliation loops provably never raise an out-of-window error, so
a failing `render()` leaves the stored rendered state untouched. -/

/-- C6: whenever `render()` ends in a fatal error, the stored
`renderedState` after the call is the one from before the call. -/
theorem c6_no_partial_commit {α : Type} [DecidableEq α]
    (ctrl : LayoutController α) (rp : RenderParms α) (e : String)
    (h : (ctrl.render rp).2 = .error e) :
    (ctrl.render rp).1.renderedState = ctrl.renderedState := by
  unfold LayoutController.render at h ⊢
  cases hinit : ctrl.initRender rp with
  | error e2 =>
    rfl
  | ok rs =>
    obtain ⟨hreg, hmac⟩ := initRender_windows ctrl rp rs hinit
    obtain ⟨st', hcells⟩ :=
      renderCells_ok rp rs (ctrl.renderedState.map (·.regularCells))
        (ctrl.renderedState.map (·.macroCells)) hreg hmac
    rw [hinit] at h
    dsimp only at h
    rw [hcells] at h
    simp at h

/-- C6 (witness): a render failing on an invalid viewport position leaves
the stored rendered state in place. -/
theorem c6_no_partial_commit_witness :
    ((c6ctrl.render badViewportRp).2 = .error "Invalid viewport position.") ∧
    (c6ctrl.render badViewportRp).1.renderedState = c6ctrl.renderedState :=
  ⟨rfl, c6_no_partial_commit c6ctrl badViewportRp "Invalid viewport position." rfl⟩

/-! Claim C2: stale pixel offsets are recoverable.  When a pixel offset is
positive and at least the resolved size of the first visible row or
column, the current engine logs a warning, resets that offset to 0 and
completes the render normally; the policy is the same for rows and
columns.  (The appended historical variant of the file instead throws in
this situation; the claim describes the current variant.) -/

/-- C2: on a valid viewport position over fully resolved, non-negative
size arrays, `render()` completes normally and commits a new rendered
state; if the row (column) pixel offset is positive and at least the
size of the first visible row (column), the committed state has that
offset reset to 0. -/
theorem c2_stale_offset_recovered {α : Type} [DecidableEq α]
    (ctrl : LayoutController α) (rp : RenderParms α)
    (h1 : 0 ≤ rp.viewportPosition.rowNdx) (h2 : 0 ≤ rp.viewportPosition.colNdx)
    (h3 : 0 ≤ rp.viewportPosition.rowPixelOffset)
    (h4 : 0 ≤ rp.viewportPosition.colPixelOffset)
    (h5 : ∀ x ∈ rp.rowHeights, 0 ≤ x) (h6 : ∀ x ∈ rp.colWidths, 0 ≤ x)
    (h7 : rp.viewportPosition.rowNdx.toNat < rp.rowHeights.length)
    (h8 : rp.viewportPosition.colNdx.toNat < rp.colWidths.length)
    (h9 : 0 ≤ ctrl.viewportHeight) (h10 : 0 ≤ ctrl.viewportWidth) :
    ∃ rs released,
      ctrl.render rp = ({ctrl with renderedState := some rs}, .ok released) ∧
      (0 < rp.viewportPosition.rowPixelOffset ∧
         rp.rowHeights.getD rp.viewportPosition.rowNdx.toNat 0 ≤
           rp.viewportPosition.rowPixelOffset →
        rs.viewportPosition.rowPixelOffset = 0) ∧
      (0 < rp.viewportPosition.colPixelOffset ∧
         rp.colWidths.getD rp.viewportPosition.colNdx.toNat 0 ≤
           rp.viewportPosition.colPixelOffset →
        rs.viewportPosition.colPixelOffset = 0) := by
  obtain ⟨bR, hscanR, hR1, hR2, hRmin, hRfin, _⟩ :=
    scanDistance_resolved_spec rp.rowHeights rp.viewportPosition.rowNdx.toNat
      (rp.viewportPosition.rowPixelOffset + ctrl.viewportHeight) rp.measure true
      h5 (le_of_lt h7)
  obtain ⟨bC, hscanC, hC1, hC2, hCmin, hCfin, _⟩ :=
    scanDistance_resolved_spec rp.colWidths rp.viewportPosition.colNdx.toNat
      (rp.viewportPosition.colPixelOffset + ctrl.viewportWidth) rp.measure false
      h6 (le_of_lt h8)
  have hinit := initRender_resolved ctrl rp bR bC h1 h2 h3 h4 hscanR hscanC
  obtain ⟨st', hcells⟩ :=
    renderCells_ok rp (resolvedState α ctrl rp bR bC)
      (ctrl.renderedState.map (·.regularCells))
      (ctrl.renderedState.map (·.macroCells)) ⟨rfl, rfl, rfl, rfl⟩ ⟨rfl, rfl, rfl, rfl⟩
  refine ⟨{resolvedState α ctrl rp bR bC with
            regularCells := st'.reg, macroCells := st'.mac},
          (if rp.releaseCell then
            remainingCells st'.oldReg ++ remainingCells st'.oldMac else []),
          ?_, ?_, ?_⟩
  · unfold LayoutController.render
    rw [hinit]
    dsimp only
    rw [hcells]
  · rintro ⟨hs1, hs2⟩
    have hadv : rp.viewportPosition.rowNdx.toNat < bR := by
      rcases eq_or_lt_of_le hR1 with heq | hlt
      · exfalso
        rcases hRfin with hge | hlen
        · rw [← heq, sizeSum_self] at hge
          omega
        · omega
      · exact hlt
    have hhead := listSlice_head rp.rowHeights rp.viewportPosition.rowNdx.toNat bR hadv h7
    dsimp only [resolvedState]
    rw [if_pos ⟨by omega, hs1, by rw [hhead]; exact hs2⟩]
  · rintro ⟨hs1, hs2⟩
    have hadv : rp.viewportPosition.colNdx.toNat < bC := by
      rcases eq_or_lt_of_le hC1 with heq | hlt
      · exfalso
        rcases hCfin with hge | hlen
        · rw [← heq, sizeSum_self] at hge
          omega
        · omega
      · exact hlt
    have hhead := listSlice_head rp.colWidths rp.viewportPosition.colNdx.toNat bC hadv h8
    dsimp only [resolvedState]
    rw [if_pos ⟨by omega, hs1, by rw [hhead]; exact hs2⟩]

/-- C2 (witness): both offsets stale (25 and 30 against sizes 20): the
render completes and both committed offsets are 0. -/
theorem c2_stale_offset_recovered_witness :
    (0 ≤ c2rp.viewportPosition.rowNdx) ∧
    (∀ x ∈ c2rp.rowHeights, 0 ≤ x) ∧
    (0 < c2rp.viewportPosition.rowPixelOffset ∧
      c2rp.rowHeights.getD c2rp.viewportPosition.rowNdx.toNat 0 ≤
        c2rp.viewportPosition.rowPixelOffset) ∧
    (0 < c2rp.viewportPosition.colPixelOffset ∧
      c2rp.colWidths.getD c2rp.viewportPosition.colNdx.toNat 0 ≤
        c2rp.viewportPosition.colPixelOffset) ∧
    (∃ rs released,
      c4ctrl.render c2rp = ({c4ctrl with renderedState := some rs}, .ok released) ∧
      (0 < c2rp.viewportPosition.rowPixelOffset ∧
         c2rp.rowHeights.getD c2rp.viewportPosition.rowNdx.toNat 0 ≤
           c2rp.viewportPosition.rowPixelOffset →
        rs.viewportPosition.rowPixelOffset = 0) ∧
      (0 < c2rp.viewportPosition.colPixelOffset ∧
         c2rp.colWidths.getD c2rp.viewportPosition.colNdx.toNat 0 ≤
           c2rp.viewportPosition.colPixelOffset →
        rs.viewportPosition.colPixelOffset = 0)) ∧
    (c4ctrl.render c2rp).1.renderedState.map
        (fun rs => (rs.viewportPosition.rowPixelOffset, rs.viewportPosition.colPixelOffset)) =
      some (0, 0) :=
  ⟨by decide, by decide, ⟨by decide, by decide⟩, ⟨by decide, by decide⟩,
   c2_stale_offset_recovered c4ctrl c2rp (by decide) (by decide) (by decide)
     (by decide) (by decide) (by decide) (by decide) (by decide) (by decide) (by decide),
   rfl⟩

/-! Claim C4: input validation of `render()`.  Negative (and, in JS,
non-integer) row/column indices and negative pixel offsets are rejected
up front, but the claimed rejections of non-integer pixel offsets and of a
macro-size array whose length mismatches the row-size array do not exist
in the code. -/

/-- C4 (counterexample): a render whose macro-size array has length 2
while the row-size array has length 1 completes normally instead of
raising the claimed fatal error. -/
theorem c4_mismatch_counterexample :
    c4rp.macroCellHeights = some [0, 0] ∧
    c4rp.rowHeights.length = 1 ∧
    (c4ctrl.render c4rp).2 = .ok [] :=
  ⟨rfl, rfl, rfl⟩

/-- C4 (amended): `render()` raises the fatal error "Invalid viewport
position." — leaving the controller untouched, hence before any
measurement or cell preparation, whatever callbacks `rp` carries — whenever
the viewport position has a negative row index, column index, row pixel
offset or column pixel offset. -/
theorem c4_invalid_viewport_rejected {α : Type} [DecidableEq α]
    (ctrl : LayoutController α) (rp : RenderParms α)
    (h : rp.viewportPosition.rowNdx < 0 ∨ rp.viewportPosition.colNdx < 0 ∨
         rp.viewportPosition.rowPixelOffset < 0 ∨ rp.viewportPosition.colPixelOffset < 0) :
    ctrl.render rp = (ctrl, .error "Invalid viewport position.") := by
  unfold LayoutController.render LayoutController.initRender
  simp only []
  rw [if_pos h]

/-- C4 (witness): the amended claim at a viewport position with row index
-1. -/
theorem c4_invalid_viewport_rejected_witness :
    (badViewportRp.viewportPosition.rowNdx < 0 ∨
     badViewportRp.viewportPosition.colNdx < 0 ∨
     badViewportRp.viewportPosition.rowPixelOffset < 0 ∨
     badViewportRp.viewportPosition.colPixelOffset < 0) ∧
    c4ctrl.render badViewportRp = (c4ctrl, .error "Invalid viewport position.") :=
  ⟨Or.inl (by decide),
   c4_invalid_viewport_rejected c4ctrl badViewportRp (Or.inl (by decide))⟩

/-! Claim C1: handle reconciliation across two renders.  The claim states
the intended reconciliation contract (also stated by the source's own
comments), but `renderCell` prunes the old identity map under the inverted
condition `cell != oldCell`, so a reused handle is passed to the release
callback while it is still tracked, and a replaced predecessor is never
released. -/

/-- C1 (code evaluated at the failing input): two consecutive renders of
the same 1x1 grid with a reusing cell factory and a release callback.
The first render tracks handle 100 and releases nothing; the second render
reuses handle 100 (the factory returns the offered old cell), tracks it at
(0,0) in the new identity map, and nevertheless passes exactly that handle
to the release callback.  With an always-fresh factory the predecessor 100
is replaced by 200 but the release list is empty, so the predecessor is
never released. -/
theorem c1_reuse_release_bug :
    (c1ctrl0.render c1rp).2 = .ok [] ∧
    c1ctrl1.renderedState.map (fun rs => rs.regularCells.get 0 0) = some (.ok (some 100)) ∧
    (c1ctrl1.render c1rp).2 = .ok [100] ∧
    (c1ctrl1.render c1rp).1.renderedState.map (fun rs => rs.regularCells.get 0 0) =
      some (.ok (some 100)) ∧
    (c1ctrl1.render c1rpFresh).2 = .ok [] ∧
    (c1ctrl1.render c1rpFresh).1.renderedState.map (fun rs => rs.regularCells.get 0 0) =
      some (.ok (some 200)) :=
  ⟨rfl, rfl, rfl, rfl, rfl, rfl⟩

/-! Claim C7: cell rectangles with macro clamping.  The engine clamps the
macro height to `min(M, H)` and stacks the macro cell below the regular
cell, but the emitted rectangles also carry the vertical cell overlap
(`y - vCellOverlap`, `height + vCellOverlap`), which the claim omits; the
claimed rectangles are exactly those obtained with overlap 0. -/

/-- C7 (counterexample): with vertical cell overlap 1, the row of height
30 with macro height 10 at y position 40 yields the regular rectangle
`{y: 39, height: 21}`, not the claimed `{y: 40, height: 20}`. -/
theorem c7_overlap_counterexample :
    c7rpOverlap.vCellOverlap = 1 ∧
    renderCell c7rpOverlap c7rs none .regular 2 0 0 0 =
      .ok (some (7, ⟨0, 39, 20, 21⟩), none) ∧
    (⟨0, 39, 20, 21⟩ : Rect) ≠ ⟨0, 40, 20, 20⟩ :=
  ⟨rfl, rfl, by decide⟩

/-- C7 (amended): with vertical cell overlap 0, for every visible row of
resolved height `H`, macro height `M` and row boundary position `y`, the
engine clamps the macro height to `m := min M H` and emits, when the
dimensions are positive, a regular cell of height `H - m` at y position
`y` and a macro cell of height `m` at y position `y + H - m`, so the two
cells stack without overlapping. -/
theorem c7_cell_rectangles {α : Type} [DecidableEq α] (rp : RenderParms α)
    (rs : RenderedState α) (oldCells : Option (CellRectMap α)) (mh : List Int)
    (rowNdx colNdx : Int) (relRow relCol : Nat)
    (hov : rp.vCellOverlap = 0)
    (hmh : rs.visibleMacroCellHeights = some mh) :
    (0 < rs.visibleColWidths.getD relCol 0 →
     0 < rs.visibleRowHeights.getD relRow 0 -
           min (mh.getD relRow 0) (rs.visibleRowHeights.getD relRow 0) →
     ∃ cell old2, renderCell rp rs oldCells .regular rowNdx colNdx relRow relCol =
       .ok (some (cell,
         ⟨rs.colXPositions.getD relCol 0,
          rs.rowYPositions.getD relRow 0,
          rs.visibleColWidths.getD relCol 0,
          rs.visibleRowHeights.getD relRow 0 -
            min (mh.getD relRow 0) (rs.visibleRowHeights.getD relRow 0)⟩), old2)) ∧
    (0 < rp.macroCellWidth →
     0 < min (mh.getD relRow 0) (rs.visibleRowHeights.getD relRow 0) →
     ∃ cell old2, renderCell rp rs oldCells .macroCell rowNdx colNdx relRow relCol =
       .ok (some (cell,
         ⟨0,
          rs.rowYPositions.getD relRow 0 + rs.visibleRowHeights.getD relRow 0 -
            min (mh.getD relRow 0) (rs.visibleRowHeights.getD relRow 0),
          rp.macroCellWidth,
          min (mh.getD relRow 0) (rs.visibleRowHeights.getD relRow 0)⟩), old2)) := by
  constructor
  · intro hW hh
    unfold renderCell
    rw [hmh, hov]
    dsimp only
    rw [if_neg (by omega)]
    simp only [sub_zero, add_zero]
    rcases oldCells with _ | mOld
    · exact ⟨_, _, rfl⟩
    · obtain ⟨v, hv⟩ := CellRectMap.get_ok mOld rowNdx colNdx
      dsimp only
      rw [hv]
      rcases v with _ | oc
      · exact ⟨_, _, rfl⟩
      · dsimp only
        split
        · obtain ⟨m1, hdel⟩ := CellRectMap.delete_ok_of_get_some mOld rowNdx colNdx oc hv
          rw [hdel]
          exact ⟨_, _, rfl⟩
        · exact ⟨_, _, rfl⟩
  · intro hW hh
    unfold renderCell
    rw [hmh, hov]
    dsimp only
    rw [if_neg (by omega)]
    simp only [sub_zero, add_zero]
    rcases oldCells with _ | mOld
    · exact ⟨_, _, rfl⟩
    · obtain ⟨v, hv⟩ := CellRectMap.get_ok mOld rowNdx colNdx
      dsimp only
      rw [hv]
      rcases v with _ | oc
      · exact ⟨_, _, rfl⟩
      · dsimp only
        split
        · obtain ⟨m1, hdel⟩ := CellRectMap.delete_ok_of_get_some mOld rowNdx colNdx oc hv
          rw [hdel]
          exact ⟨_, _, rfl⟩
        · exact ⟨_, _, rfl⟩

/-- C7 (witness): E2E scenario C — row height 30, macro height 10, row
boundary 40, overlap 0: regular rectangle `{x:0, y:40, w:20, h:20}` and
macro rectangle `{x:0, y:60, w:50, h:10}`. -/
theorem c7_cell_rectangles_witness :
    c7rp.vCellOverlap = 0 ∧
    c7rs.visibleMacroCellHeights = some [10] ∧
    ((0 < c7rs.visibleColWidths.getD 0 0 →
      0 < c7rs.visibleRowHeights.getD 0 0 -
            min (([10] : List Int).getD 0 0) (c7rs.visibleRowHeights.getD 0 0) →
      ∃ cell old2, renderCell c7rp c7rs none .regular 2 0 0 0 =
        .ok (some (cell,
          ⟨c7rs.colXPositions.getD 0 0,
           c7rs.rowYPositions.getD 0 0,
           c7rs.visibleColWidths.getD 0 0,
           c7rs.visibleRowHeights.getD 0 0 -
             min (([10] : List Int).getD 0 0) (c7rs.visibleRowHeights.getD 0 0)⟩), old2)) ∧
     (0 < c7rp.macroCellWidth →
      0 < min (([10] : List Int).getD 0 0) (c7rs.visibleRowHeights.getD 0 0) →
      ∃ cell old2, renderCell c7rp c7rs none .macroCell 2 0 0 0 =
        .ok (some (cell,
          ⟨0,
           c7rs.rowYPositions.getD 0 0 + c7rs.visibleRowHeights.getD 0 0 -
             min (([10] : List Int).getD 0 0) (c7rs.visibleRowHeights.getD 0 0),
           c7rp.macroCellWidth,
           min (([10] : List Int).getD 0 0) (c7rs.visibleRowHeights.getD 0 0)⟩), old2))) ∧
    renderCell c7rp c7rs none .regular 2 0 0 0 = .ok (some (7, ⟨0, 40, 20, 20⟩), none) ∧
    renderCell c7rp c7rs none .macroCell 2 0 0 0 = .ok (some (7, ⟨0, 60, 50, 10⟩), none) :=
  ⟨rfl, rfl,
   c7_cell_rectangles c7rp c7rs none [10] 2 0 0 0 rfl rfl,
   rfl, rfl⟩

/-! Claim C9: large-increment scrolling. -/

/-- C9: for a non-degenerate input with the large-increment unit, with
`d1` the signed target distance of one viewport, `r` the measure result
and `n` the number of elements the scan covered, the top index moves by
`max 1 (n-1)` elements in the direction of the scroll value when the scan
overshot the target distance and by `max 1 n` elements when it did not,
rounded to the nearest integer and clamped to `[0, elementCount-1]`. -/
theorem c9_large_increment (ip : GridScroll.InputParms)
    (h1 : 1 < ip.elementCount) (h2 : 0 < ip.viewportSize)
    (h3 : ip.scrollUnit = .largeIncr) :
    (GridScroll.process ip).topNdx =
      max 0 (min (ip.elementCount - 1)
        (GridScroll.jsRound (ip.topNdx +
          (if |ip.scrollValue * ip.viewportSize| <
              (ip.measure ip.topNdx (ip.scrollValue * ip.viewportSize)).distance
           then max 1 (((ip.measure ip.topNdx (ip.scrollValue * ip.viewportSize)).sizes.length : ℚ) - 1)
           else max 1 ((ip.measure ip.topNdx (ip.scrollValue * ip.viewportSize)).sizes.length : ℚ))
          * GridScroll.jsSign ip.scrollValue))) := by
  unfold GridScroll.process
  rw [if_neg (by push_neg; exact ⟨by omega, h2⟩), h3]
  simp only [apply_ite (max (1 : ℚ))]

/-- C9 (witness): E2E scenario D — value +1 from top index 5 with viewport
size 100 and element sizes 20; the scan covers five elements with distance
exactly 100 (no overshoot), so the new top index is 10. -/
theorem c9_large_increment_witness :
    (1 < c9ip.elementCount) ∧ (0 < c9ip.viewportSize) ∧
    c9ip.scrollUnit = .largeIncr ∧
    (GridScroll.process c9ip).topNdx =
      max 0 (min (c9ip.elementCount - 1)
        (GridScroll.jsRound (c9ip.topNdx +
          (if |c9ip.scrollValue * c9ip.viewportSize| <
              (c9ip.measure c9ip.topNdx (c9ip.scrollValue * c9ip.viewportSize)).distance
           then max 1 (((c9ip.measure c9ip.topNdx (c9ip.scrollValue * c9ip.viewportSize)).sizes.length : ℚ) - 1)
           else max 1 ((c9ip.measure c9ip.topNdx (c9ip.scrollValue * c9ip.viewportSize)).sizes.length : ℚ))
          * GridScroll.jsSign c9ip.scrollValue))) ∧
    (GridScroll.process c9ip).topNdx = 10 :=
  ⟨by decide, by norm_num [c9ip], rfl,
   c9_large_increment c9ip (by decide) (by norm_num [c9ip]) rfl,
   by norm_num [GridScroll.process, c9ip, GridScroll.jsRound, GridScroll.jsSign,
                GridScroll.estimateScrollbarThumbSize]⟩

end VGL
